import Mathlib

/-!
Shallow embedding of the tab-autocomplete completion pipeline of
`src/extensions/vscode/src/autocomplete/getTabCompletion.ts`.

External collaborators (the editor document, the model handle, the LSP lookup,
prompt construction, template selection and rendering, the delta stream) are
parameters of the run environment `TabEnv`.  Collaborators that belong to this
repository but whose code is not under `src/` (the LRU completion cache, the
stream transform stages, the caller-side cache write) are modelled from the
spec; each such definition is marked in its doc comment.
-/

/-! ## JavaScript string helpers -/

def isWs (c : Char) : Bool := c.isWhitespace

def trimEndList (l : List Char) : List Char := (l.reverse.dropWhile isWs).reverse

def trimStartList (l : List Char) : List Char := l.dropWhile isWs

/-- JavaScript `String.prototype.trimEnd`. -/
def jsTrimEnd (s : String) : String := String.mk (trimEndList s.data)

/-- JavaScript `String.prototype.trim`. -/
def jsTrim (s : String) : String := String.mk (trimEndList (trimStartList s.data))

/-- JavaScript `String.prototype.endsWith`. -/
def jsEndsWith (s suffixStr : String) : Bool := suffixStr.data.isSuffixOf s.data

/-- JavaScript truthiness of a `string | undefined` value:
`undefined` and the empty string are falsy. -/
def jsTruthy : Option String → Bool
  | none => false
  | some s => !(s == "")

/-! ## Data model -/

/-- The language information used by `getTabCompletion`
(`lang.endOfLine` and `lang.stopWords`). -/
structure Lang where
  endOfLine : List String
  stopWords : List String
deriving DecidableEq

inductive MultilineSetting
  | always
  | never
  | auto
deriving DecidableEq

/-- The fields of `TabAutocompleteOptions` read by `getTabCompletion`. -/
structure TabAutocompleteOptions where
  multilineCompletions : MultilineSetting
  template : Option String
deriving DecidableEq

/-- Completion options, as a record of the fields `getTabCompletion` writes
(`stop`, `temperature`, `raw`) plus an opaque remainder `extra` standing for
any further provider parameters carried by the template's options and
preserved by the object spread. -/
structure CompletionOptions where
  stop : Option (List String)
  temperature : Option Int
  raw : Option Bool
  extra : List (String × String)
deriving DecidableEq

def emptyCompletionOptions : CompletionOptions := ⟨none, none, none, []⟩

/-- The `{ template, completionOptions }` pair returned by
`getTemplateForModel` (or built from `options.template`). -/
structure TemplateChoice where
  template : String
  completionOptions : CompletionOptions
deriving DecidableEq

/-- The fields of the model handle read by `getTabCompletion`. -/
structure LLM where
  model : String
  providerName : String
deriving DecidableEq

/-- An autocomplete snippet (opaque payload). -/
structure Snippet where
  content : String
deriving DecidableEq

/-- The `{ prefix, suffix, completeMultiline }` record returned by
`constructAutocompletePrompt`. -/
structure ConstructedPrompt where
  prefixText : String
  suffixText : String
  completeMultiline : Bool
deriving DecidableEq

/-- The request `getTabCompletion` builds for `llm.streamComplete`
(the prompt and the merged completion options). -/
structure StreamRequest where
  prompt : String
  options : CompletionOptions
deriving DecidableEq

/-- The `AutocompleteOutcome` record of `getTabCompletion.ts`
(sans the post-hoc `accepted` flag, which the function never sets). -/
structure AutocompleteOutcome where
  time : Nat
  prompt : String
  completion : String
  modelProvider : String
  modelName : String
  completionOptions : CompletionOptions
  cacheHit : Bool
deriving DecidableEq

/-! ## The completion cache, modelled from the spec -/

/-- Modelled from the spec: `AutocompleteLruCache`
(`core/autocomplete/cache.ts`, not under `src/`): a bounded
least-recently-used map from exact rendered prompt to completion text
(spec section 3 "CacheEntry" and section 4.1).  Entries are kept
most-recently-used first. -/
structure LruCache where
  capacity : Nat
  entries : List (String × String)
deriving DecidableEq

def LruCache.lookup (c : LruCache) (k : String) : Option String :=
  (c.entries.find? (fun e => e.1 == k)).map (fun e => e.2)

/-- Modelled from the spec: `get` is a lookup whose only side effect is
marking the entry most-recently-used (spec section 4.1). -/
def LruCache.get (c : LruCache) (k : String) : Option String × LruCache :=
  match c.entries.find? (fun e => e.1 == k) with
  | none => (none, c)
  | some e => (some e.2, ⟨c.capacity, e :: c.entries.filter (fun e' => !(e'.1 == k))⟩)

/-- Modelled from the spec: `put` inserts/overwrites as most-recently-used and
evicts the least-recently-used entries beyond capacity (spec section 4.1). -/
def LruCache.put (c : LruCache) (k v : String) : LruCache :=
  ⟨c.capacity, ((k, v) :: c.entries.filter (fun e => !(e.1 == k))).take c.capacity⟩

/-- Removing a key from the cache; used to state that an empty-string entry is
treated exactly like an absent entry. -/
def LruCache.erase (c : LruCache) (k : String) : LruCache :=
  ⟨c.capacity, c.entries.filter (fun e => !(e.1 == k))⟩

/-! ## The stream transform stages, modelled from the spec -/

def splitOnNewline : List Char → List (List Char)
  | [] => [[]]
  | c :: rest =>
    let r := splitOnNewline rest
    if c = '\n' then [] :: r
    else
      match r with
      | [] => [[c]]
      | h :: t => (c :: h) :: t

def lineOnlyMarker (markers : List String) (l : List Char) : Bool :=
  markers.any (fun m => m.data == l)

def owaeolGo (markers : List String) : Bool → List Char → List String → List String
  | _, _, [] => []
  | suppressing, cur, c :: rest =>
    if suppressing && c.data.all isWs then
      owaeolGo markers suppressing cur rest
    else
      let pieces := splitOnNewline (cur ++ c.data)
      c :: owaeolGo markers
        ((pieces.dropLast.getLast?).elim false (fun l => lineOnlyMarker markers l))
        ((pieces.getLast?).getD []) rest

/-- Modelled from the spec: stage 1, `onlyWhitespaceAfterEndOfLine`
(`core/autocomplete/charStream.ts`, not under `src/`): once a produced line
consists only of one of the language's end-of-line markers, pure-whitespace
deltas are dropped until a delta containing a non-whitespace character
appears (spec section 4.3 item 1). -/
def onlyWhitespaceAfterEndOfLine (markers : List String) (chunks : List String) : List String :=
  owaeolGo markers false [] chunks

/-- Modelled from the spec: stage 2a, `streamLines` (`core/diff/util.ts`, not
under `src/`): regroups the raw character deltas into complete-line chunks
(spec section 4.3 item 2). -/
def streamLines (chunks : List String) : List String :=
  (splitOnNewline (String.join chunks).data).map String.mk

/-- Modelled from the spec: stage 2b, `streamWithNewLines`
(`core/autocomplete/lineStream.ts`, not under `src/`): re-inserts the newline
boundaries between the line chunks exactly as received (spec section 4.3
item 2). -/
def streamWithNewLines (lines : List String) : List String :=
  match lines with
  | [] => []
  | l :: rest => l :: rest.map (fun s => "\n" ++ s)

/-- Modelled from the spec: stage 3, `stopAtSimilarLine`
(`core/autocomplete/lineStream.ts`, not under `src/`): after each produced
line chunk, compares it against the line below the cursor and emits nothing
further on a match (spec section 4.3 item 3).  The exact similarity measure
is a tunable, not a fixed contract (spec section 9), so it is a parameter. -/
def stopAtSimilarLine (similar : String → String → Bool) (lineBelow : String)
    (chunks : List String) : List String :=
  chunks.takeWhile (fun c => !similar c lineBelow)

/-! ## The run environment -/

/-- The environment of one `getTabCompletion` call: the document state, the
options, and the behavior of every external collaborator.  Fallible awaited
collaborators are `Except`-valued; an `error` value stands for a rejected
promise whose message is the payload. -/
structure TabEnv where
  lang : Lang
  docLines : List String
  posLine : Nat
  posChar : Nat
  options : TabAutocompleteOptions
  /-- `tabAutocompleteModel.get()`: may reject, may yield no model. -/
  llmGet : Except String (Option LLM)
  /-- `vscode.env.clipboard.readText()`. -/
  clipboardRead : Except String String
  /-- the time at which the `getDefinitionsFromLsp` promise settles (ms). -/
  lspSettleTime : Nat
  /-- what the `getDefinitionsFromLsp` promise settles to. -/
  lspResult : Except String (List Snippet)
  /-- `constructAutocompletePrompt`, as a function of the extra snippets. -/
  constructPrompt : List Snippet → Except String ConstructedPrompt
  /-- `getTemplateForModel`. -/
  templateForModel : String → TemplateChoice
  /-- Handlebars compile-and-apply: template, prefix text, suffix text. -/
  renderTemplate : String → String → String → String
  /-- the deltas delivered by the generator produced by
  `GeneratorReuseManager.getGenerator`; an `error` value stands for a
  stream that throws. -/
  streamDeltas : Except String (List String)
  /-- index of the delta check at which `token.isCancellationRequested`
  first reads true, if any. -/
  cancelAt : Option Nat
  /-- the similarity predicate of the similar-line stopper. -/
  similar : String → String → Bool
  /-- the elapsed wall-clock time reported in the outcome. -/
  elapsed : Nat

/-- The process-wide state threaded through calls: the completion cache and the
set of already-surfaced error messages
(`ContinueCompletionProvider.errorsShown`). -/
structure SharedState where
  cache : LruCache
  errorsShown : List String
deriving DecidableEq

/-- Effects observable at the collaborator boundaries during one call. -/
structure Trace where
  modelResolved : Bool
  cacheProbed : Bool
  generatorAcquired : Bool
  streamRequests : List StreamRequest
  surfacedErrors : List String
deriving DecidableEq

def Trace.empty : Trace := ⟨false, false, false, [], []⟩

/-- The result of one call: the returned value, the updated shared state, and
the trace. -/
structure RunResult where
  outcome : Option AutocompleteOutcome
  state : SharedState
  trace : Trace
deriving DecidableEq

/-! ## The embedding of `getTabCompletion` -/

/-- `document.lineAt(pos).text`. -/
def lineAtCursor (env : TabEnv) : String := env.docLines.getD env.posLine ""

/-- The early-return filter (lines 49-56): the cursor's line ends with one of
the language's end-of-line markers and the cursor column is at or past the
end of the line. -/
def filterHit (env : TabEnv) : Bool :=
  env.lang.endOfLine.any (fun eol =>
    jsEndsWith (lineAtCursor env) eol && decide ((lineAtCursor env).length ≤ env.posChar))

/-- `document.lineAt(Math.min(pos.line + 1, document.lineCount - 1)).text`
(lines 76-78). -/
def lineBelowCursor (env : TabEnv) : String :=
  env.docLines.getD (min (env.posLine + 1) (env.docLines.length - 1)) ""

/-- The `Promise.race` of the LSP definitions lookup against a 100ms timer
resolving to `[]` (lines 81-86): whichever settles first wins, the lookup
winning ties. -/
def raceLsp (settleTime : Nat) (r : Except String (List Snippet)) :
    Except String (List Snippet) :=
  if settleTime ≤ 100 then r else Except.ok []

/-- Lines 103-105: `options.template` overrides the model-specific template
with empty completion options. -/
def chooseTemplate (env : TabEnv) (llm : LLM) : TemplateChoice :=
  match env.options.template with
  | some t => ⟨t, emptyCompletionOptions⟩
  | none => env.templateForModel llm.model

/-- The local values of the `getTabCompletion` body once the prompt is
rendered, bundled as a record. -/
structure Gathered where
  llm : LLM
  constructed : ConstructedPrompt
  templateChoice : TemplateChoice
  prompt : String
  lineBelow : String
deriving DecidableEq

/-- Lines 58-108 of the `try` block: resolve the model handle, read the
clipboard, race the LSP lookup, construct the prompt pieces, choose the
template, render the prompt.  `ok none` is the `if (!llm) return;` exit. -/
def gatherContext (env : TabEnv) : Except String (Option Gathered) :=
  match env.llmGet with
  | Except.error e => Except.error e
  | Except.ok none => Except.ok none
  | Except.ok (some llm) =>
    match env.clipboardRead with
    | Except.error e => Except.error e
    | Except.ok _clip =>
      match raceLsp env.lspSettleTime env.lspResult with
      | Except.error e => Except.error e
      | Except.ok snippets =>
        match env.constructPrompt snippets with
        | Except.error e => Except.error e
        | Except.ok constructed =>
          let tc := chooseTemplate env llm
          Except.ok (some ⟨llm, constructed, tc,
            env.renderTemplate tc.template constructed.prefixText constructed.suffixText,
            lineBelowCursor env⟩)

/-- The stop-sequence list of lines 124-135: the template's stop sequences,
the two hardcoded separators, the language's stop words; `"\n"` is unshifted
under the multiline condition of lines 130-133. -/
def stopList (env : TabEnv) (g : Gathered) : List String :=
  let base := g.templateChoice.completionOptions.stop.getD [] ++
    ["\n\n", "```"] ++ env.lang.stopWords
  if env.options.multilineCompletions ≠ MultilineSetting.always ∧
      (env.options.multilineCompletions = MultilineSetting.never ∨
        g.constructed.completeMultiline = false)
  then "\n" :: base
  else base

/-- The completion options passed to `llm.streamComplete` (lines 137-142):
the template's options spread first, then `temperature: 0`, `raw: true` and
the computed `stop` list written over them. -/
def mergedOptions (g : Gathered) (stopL : List String) : CompletionOptions :=
  { g.templateChoice.completionOptions with
    stop := some stopL, temperature := some 0, raw := some true }

/-- `generatorWithCancellation` (lines 146-156): the cancellation token is
checked once before yielding each delta; on the first check that reads true
the wrapper stops and records `cancelled = true`. -/
def consumeWithCancellation (cancelAt : Option Nat) (deltas : List String) :
    List String × Bool :=
  match cancelAt with
  | none => (deltas, false)
  | some n => if n < deltas.length then (deltas.take n, true) else (deltas, false)

/-- Lines 157-162: the three-stage pipeline applied to the deltas that passed
the cancellation wrapper. -/
def pipelineChunks (env : TabEnv) (g : Gathered) (outDeltas : List String) : List String :=
  stopAtSimilarLine env.similar g.lineBelow
    (streamWithNewLines (streamLines (onlyWhitespaceAfterEndOfLine env.lang.endOfLine outDeltas)))

/-- The outcome record of lines 181-189. -/
def mkOutcome (env : TabEnv) (g : Gathered) (completion : String) (hit : Bool) :
    AutocompleteOutcome :=
  ⟨env.elapsed, g.prompt, completion, g.llm.providerName, g.llm.model,
    g.templateChoice.completionOptions, hit⟩

/-- The `catch` block (lines 190-204): the call resolves to `undefined`; the
message is surfaced via `showErrorMessage` only if it is not already in
`ContinueCompletionProvider.errorsShown`, and is recorded there. -/
def handleError (msg : String) (st : SharedState) (tr : Trace) : RunResult :=
  if msg ∈ st.errorsShown then ⟨none, st, tr⟩
  else ⟨none, ⟨st.cache, msg :: st.errorsShown⟩,
    { tr with surfacedErrors := tr.surfacedErrors ++ [msg] }⟩

/-- The cache-miss branch (lines 120-177): build the stop list and the stream
request, consume the generator under the cancellation wrapper through the
three-stage pipeline, then apply the cancelled / empty-after-trim exits and
the trailing-whitespace trim. -/
def missPath (env : TabEnv) (g : Gathered) (st1 : SharedState) : RunResult :=
  let req : StreamRequest := ⟨g.prompt, mergedOptions g (stopList env g)⟩
  let tr : Trace := ⟨true, true, true, [req], []⟩
  match env.streamDeltas with
  | Except.error msg => handleError msg st1 tr
  | Except.ok deltas =>
    let consumed := consumeWithCancellation env.cancelAt deltas
    let completionRaw := String.join (pipelineChunks env g consumed.1)
    if consumed.2 then ⟨none, st1, tr⟩
    else if (jsTrim completionRaw).length ≤ 0 then ⟨none, st1, tr⟩
    else ⟨some (mkOutcome env g (jsTrimEnd completionRaw) false), st1, tr⟩

/-- The embedding of `getTabCompletion` (lines 39-206): the end-of-line
filter, the gathered context, the cache probe with JavaScript truthiness
(`if (cachedCompletion)`), the hit path returning the cached string
unchanged, the miss path, and the `catch` boundary. -/
def getTabCompletion (env : TabEnv) (st : SharedState) : RunResult :=
  if filterHit env then ⟨none, st, Trace.empty⟩
  else
    match gatherContext env with
    | Except.error msg => handleError msg st { Trace.empty with modelResolved := true }
    | Except.ok none => ⟨none, st, { Trace.empty with modelResolved := true }⟩
    | Except.ok (some g) =>
      let probed := LruCache.get st.cache g.prompt
      let st1 : SharedState := ⟨probed.2, st.errorsShown⟩
      if jsTruthy probed.1 then
        ⟨some (mkOutcome env g (probed.1.getD "") true), st1, ⟨true, true, false, [], []⟩⟩
      else missPath env g st1

/-- Modelled from the spec: the Finalize step "store in cache keyed by
rendered prompt" (spec section 4.4 step 6).  In this repository the cache
write is performed by the caller in `completionProvider.ts`, which is not
under `src/`: a served outcome that was not a cache hit is stored keyed by
its rendered prompt. -/
def completeAndCache (env : TabEnv) (st : SharedState) : RunResult :=
  let r := getTabCompletion env st
  match r.outcome with
  | some o =>
    if o.cacheHit then r
    else ⟨r.outcome, ⟨r.state.cache.put o.prompt o.completion, r.state.errorsShown⟩, r.trace⟩
  | none => r

/-! ## Concrete scenario used by the witnesses and the counterexample -/

def wLLM : LLM := ⟨"test-model", "test-provider"⟩

def wTemplate : TemplateChoice := ⟨"tpl", emptyCompletionOptions⟩

def wConstructed : ConstructedPrompt := ⟨"pref", "suf", true⟩

def wEnv : TabEnv where
  lang := ⟨[";"], ["function"]⟩
  docLines := ["let x = 1", "y"]
  posLine := 0
  posChar := 3
  options := ⟨MultilineSetting.auto, none⟩
  llmGet := Except.ok (some wLLM)
  clipboardRead := Except.ok ""
  lspSettleTime := 0
  lspResult := Except.ok []
  constructPrompt := fun _ => Except.ok wConstructed
  templateForModel := fun _ => wTemplate
  renderTemplate := fun t p s => t ++ p ++ s
  streamDeltas := Except.ok ["abc"]
  cancelAt := none
  similar := fun a b => a == b && !(a == "")
  elapsed := 5

def wGathered : Gathered := ⟨wLLM, wConstructed, wTemplate, "tplprefsuf", "y"⟩

def wSt : SharedState := ⟨⟨10, []⟩, []⟩

def wOutcome : AutocompleteOutcome :=
  ⟨5, "tplprefsuf", "abc", "test-provider", "test-model", emptyCompletionOptions, false⟩

def wEnvC3 : TabEnv := { wEnv with cancelAt := some 0 }

def wEnvC4 : TabEnv := { wEnv with docLines := ["x;", "y"], posChar := 2 }

def wEnvC5 : TabEnv := { wEnv with streamDeltas := Except.ok [] }

def wEnvC6 : TabEnv := { wEnv with llmGet := Except.error "boom" }

def wEnvC7 : TabEnv := { wEnv with lspSettleTime := 200, lspResult := Except.error "lsp late" }

def wStC10 : SharedState := ⟨⟨10, [("tplprefsuf", "")]⟩, []⟩

/-! ## Helper lemmas -/

theorem find?_filter_ne (l : List (String × String)) (k k' : String) (hne : k' ≠ k) :
    (l.filter (fun e => !(e.1 == k))).find? (fun e => e.1 == k') =
      l.find? (fun e => e.1 == k') := by
  induction l with
  | nil => rfl
  | cons a l ih =>
    by_cases hak : a.1 = k
    · have h1 : (a.1 == k) = true := beq_iff_eq.mpr hak
      have h2 : (a.1 == k') = false := by
        rw [hak]; exact beq_eq_false_iff_ne.mpr fun h => hne h.symm
      simp [List.filter_cons, h1, h2, List.find?_cons, ih]
    · have h1 : (a.1 == k) = false := beq_eq_false_iff_ne.mpr hak
      simp [List.filter_cons, h1, List.find?_cons, ih]

theorem lookup_get (c : LruCache) (k k' : String) :
    ((c.get k).2).lookup k' = c.lookup k' := by
  unfold LruCache.get LruCache.lookup
  cases h : c.entries.find? (fun e => e.1 == k) with
  | none => rfl
  | some e =>
    have hek : e.1 = k :=
      eq_of_beq (@List.find?_some _ (fun e => e.1 == k) e c.entries h)
    by_cases hkk : k' = k
    · subst hkk
      have h2 : (e.1 == k') = true := beq_iff_eq.mpr hek
      simp only [List.find?_cons, h2, h]
    · have h2 : (e.1 == k') = false := by
        rw [hek]; exact beq_eq_false_iff_ne.mpr fun h' => hkk h'.symm
      simp only [List.find?_cons, h2]
      rw [find?_filter_ne _ _ _ hkk]

theorem get_capacity (c : LruCache) (k : String) : ((c.get k).2).capacity = c.capacity := by
  unfold LruCache.get
  split <;> rfl

theorem get_put_self (c : LruCache) (k v : String) (h : 0 < c.capacity) :
    (LruCache.get (c.put k v) k).1 = some v := by
  obtain ⟨n, hn⟩ : ∃ n, c.capacity = n + 1 := ⟨c.capacity - 1, by omega⟩
  unfold LruCache.put LruCache.get
  simp only [hn, List.take_succ_cons, List.find?_cons, beq_self_eq_true]

theorem jsTrim_of_jsTrimEnd_empty (s : String) (h : jsTrimEnd s = "") : jsTrim s = "" := by
  have hl : trimEndList s.data = [] := congrArg String.data h
  have hall : ∀ x ∈ s.data, isWs x := by
    intro x hx
    have h1 : s.data.reverse.dropWhile isWs = [] := by
      have := congrArg List.reverse hl
      simpa [trimEndList] using this
    exact List.dropWhile_eq_nil_iff.mp h1 x (List.mem_reverse.mpr hx)
  have h2 : trimStartList s.data = [] := List.dropWhile_eq_nil_iff.mpr hall
  show String.mk (trimEndList (trimStartList s.data)) = ""
  rw [h2]
  rfl

theorem jsTrimEnd_ne_empty (x : String) (h : ¬ (jsTrim x).length ≤ 0) : jsTrimEnd x ≠ "" := by
  intro he
  exact h (by rw [jsTrim_of_jsTrimEnd_empty x he]; exact Nat.le_refl 0)

theorem handleError_outcome (msg : String) (st : SharedState) (tr : Trace) :
    (handleError msg st tr).outcome = none := by
  unfold handleError
  split <;> rfl

theorem run_hit (env : TabEnv) (st : SharedState) (g : Gathered)
    (hf : filterHit env = false) (hg : gatherContext env = Except.ok (some g))
    (hc : jsTruthy (LruCache.get st.cache g.prompt).1 = true) :
    getTabCompletion env st =
      ⟨some (mkOutcome env g (((LruCache.get st.cache g.prompt).1).getD "") true),
        ⟨(LruCache.get st.cache g.prompt).2, st.errorsShown⟩, ⟨true, true, false, [], []⟩⟩ := by
  unfold getTabCompletion
  rw [hf, hg]
  simp [hc]

theorem run_miss (env : TabEnv) (st : SharedState) (g : Gathered)
    (hf : filterHit env = false) (hg : gatherContext env = Except.ok (some g))
    (hm : jsTruthy (LruCache.get st.cache g.prompt).1 = false) :
    getTabCompletion env st =
      missPath env g ⟨(LruCache.get st.cache g.prompt).2, st.errorsShown⟩ := by
  unfold getTabCompletion
  rw [hf, hg]
  simp [hm]

theorem run_gather_error (env : TabEnv) (st : SharedState) (msg : String)
    (hf : filterHit env = false) (hg : gatherContext env = Except.error msg) :
    getTabCompletion env st = handleError msg st { Trace.empty with modelResolved := true } := by
  unfold getTabCompletion
  rw [hf, hg]
  simp

theorem completeAndCache_outcome (env : TabEnv) (st : SharedState) :
    (completeAndCache env st).outcome = (getTabCompletion env st).outcome := by
  cases h : (getTabCompletion env st).outcome with
  | none => simp [completeAndCache, h]
  | some o => by_cases hc : o.cacheHit <;> simp [completeAndCache, h, hc]

theorem gather_lineBelow (env : TabEnv) (g : Gathered)
    (hg : gatherContext env = Except.ok (some g)) : g.lineBelow = lineBelowCursor env := by
  unfold gatherContext at hg
  split at hg
  · exact absurd hg (by simp)
  · exact absurd hg (by simp)
  · split at hg
    · exact absurd hg (by simp)
    · split at hg
      · exact absurd hg (by simp)
      · split at hg
        · exact absurd hg (by simp)
        · simp only [Except.ok.injEq, Option.some.injEq] at hg
          rw [← hg]

theorem served_miss_inversion (env : TabEnv) (st : SharedState) (o : AutocompleteOutcome)
    (h : (getTabCompletion env st).outcome = some o) (hm : o.cacheHit = false) :
    ∃ g deltas,
      filterHit env = false ∧
      gatherContext env = Except.ok (some g) ∧
      jsTruthy (LruCache.get st.cache g.prompt).1 = false ∧
      env.streamDeltas = Except.ok deltas ∧
      (consumeWithCancellation env.cancelAt deltas).2 = false ∧
      ¬ (jsTrim (String.join (pipelineChunks env g
          (consumeWithCancellation env.cancelAt deltas).1))).length ≤ 0 ∧
      o = mkOutcome env g
        (jsTrimEnd (String.join (pipelineChunks env g
          (consumeWithCancellation env.cancelAt deltas).1))) false := by
  simp only [getTabCompletion] at h
  split at h
  · exact absurd h (by simp)
  · rename_i hf
    split at h
    · rw [handleError_outcome] at h; exact absurd h (by simp)
    · exact absurd h (by simp)
    · rename_i g hg
      split at h
      · rename_i hc
        simp only [Option.some.injEq] at h
        rw [← h] at hm
        simp [mkOutcome] at hm
      · rename_i hc
        simp only [missPath] at h
        split at h
        · rw [handleError_outcome] at h; exact absurd h (by simp)
        · rename_i deltas hd
          split at h
          · exact absurd h (by simp)
          · rename_i hcc
            split at h
            · exact absurd h (by simp)
            · rename_i hlen
              simp only [Option.some.injEq] at h
              exact ⟨g, deltas, by simpa using hf, hg, by simpa using hc, hd,
                by simpa using hcc, hlen, h.symm⟩

theorem completeAndCache_of_none (env : TabEnv) (st : SharedState)
    (h : (getTabCompletion env st).outcome = none) :
    completeAndCache env st = getTabCompletion env st := by
  simp [completeAndCache, h]

theorem miss_streamRequests (env : TabEnv) (st : SharedState) (g : Gathered)
    (hf : filterHit env = false) (hg : gatherContext env = Except.ok (some g))
    (hm : jsTruthy (LruCache.get st.cache g.prompt).1 = false) :
    (getTabCompletion env st).trace.streamRequests =
      [⟨g.prompt, mergedOptions g (stopList env g)⟩] := by
  rw [run_miss env st g hf hg hm]
  simp only [missPath]
  split
  · unfold handleError
    split <;> rfl
  · split
    · rfl
    · split <;> rfl

/-! ## Claims -/

/-- Claim C4: when the cursor's line ends with one of the language's
end-of-line markers and the cursor column is at or past the end of that line,
`getTabCompletion` returns absent immediately: the shared state is untouched
and the trace shows that the model handle was not resolved, the cache was not
probed, and no generator acquisition or stream request happened. -/
theorem claim_c4_eol_filter (env : TabEnv) (st : SharedState)
    (h : ∃ eol ∈ env.lang.endOfLine,
      jsEndsWith (lineAtCursor env) eol = true ∧ (lineAtCursor env).length ≤ env.posChar) :
    (getTabCompletion env st).outcome = none ∧
    (getTabCompletion env st).state = st ∧
    (getTabCompletion env st).trace.modelResolved = false ∧
    (getTabCompletion env st).trace.cacheProbed = false ∧
    (getTabCompletion env st).trace.generatorAcquired = false ∧
    (getTabCompletion env st).trace.streamRequests = [] := by
  have hf : filterHit env = true := by
    obtain ⟨eol, hmem, h1, h2⟩ := h
    unfold filterHit
    rw [List.any_eq_true]
    exact ⟨eol, hmem, by simp [h1, h2]⟩
  simp [getTabCompletion, hf, Trace.empty]

theorem claim_c4_witness :
    (∃ eol ∈ wEnvC4.lang.endOfLine,
      jsEndsWith (lineAtCursor wEnvC4) eol = true ∧
        (lineAtCursor wEnvC4).length ≤ wEnvC4.posChar) ∧
    (getTabCompletion wEnvC4 wSt).outcome = none ∧
    (getTabCompletion wEnvC4 wSt).state = wSt ∧
    (getTabCompletion wEnvC4 wSt).trace.modelResolved = false ∧
    (getTabCompletion wEnvC4 wSt).trace.cacheProbed = false ∧
    (getTabCompletion wEnvC4 wSt).trace.generatorAcquired = false ∧
    (getTabCompletion wEnvC4 wSt).trace.streamRequests = [] :=
  ⟨⟨";", by decide⟩, claim_c4_eol_filter wEnvC4 wSt ⟨";", by decide⟩⟩

/-- Claim C3: when the cancellation signal is observed at delta index `n`
while the stream is being consumed on a cache miss, the call returns absent,
accumulation stopped at the first `n` deltas, and even after the caller-side
store step the cache maps the rendered prompt exactly as before (a cancelled
completion is never memoized). -/
theorem claim_c3_cancellation (env : TabEnv) (st : SharedState) (g : Gathered)
    (deltas : List String) (n : Nat)
    (hf : filterHit env = false)
    (hg : gatherContext env = Except.ok (some g))
    (hm : jsTruthy (LruCache.get st.cache g.prompt).1 = false)
    (hd : env.streamDeltas = Except.ok deltas)
    (hc : env.cancelAt = some n)
    (hlt : n < deltas.length) :
    (getTabCompletion env st).outcome = none ∧
    (consumeWithCancellation env.cancelAt deltas).1 = deltas.take n ∧
    (completeAndCache env st).state.cache.lookup g.prompt = st.cache.lookup g.prompt := by
  have hcons : consumeWithCancellation env.cancelAt deltas = (deltas.take n, true) := by
    simp [consumeWithCancellation, hc, hlt]
  have hrun : getTabCompletion env st =
      ⟨none, ⟨(LruCache.get st.cache g.prompt).2, st.errorsShown⟩,
        ⟨true, true, true, [⟨g.prompt, mergedOptions g (stopList env g)⟩], []⟩⟩ := by
    rw [run_miss env st g hf hg hm]
    simp [missPath, hd, hcons]
  have hnone : (getTabCompletion env st).outcome = none := by rw [hrun]
  refine ⟨hnone, by rw [hcons], ?_⟩
  rw [completeAndCache_of_none env st hnone, hrun]
  exact lookup_get st.cache g.prompt g.prompt

theorem claim_c3_witness :
    filterHit wEnvC3 = false ∧
    gatherContext wEnvC3 = Except.ok (some wGathered) ∧
    jsTruthy (LruCache.get wSt.cache wGathered.prompt).1 = false ∧
    wEnvC3.streamDeltas = Except.ok ["abc"] ∧
    wEnvC3.cancelAt = some 0 ∧
    0 < (["abc"] : List String).length ∧
    ((getTabCompletion wEnvC3 wSt).outcome = none ∧
      (consumeWithCancellation wEnvC3.cancelAt ["abc"]).1 = (["abc"] : List String).take 0 ∧
      (completeAndCache wEnvC3 wSt).state.cache.lookup wGathered.prompt =
        wSt.cache.lookup wGathered.prompt) :=
  ⟨rfl, rfl, rfl, rfl, rfl, by decide,
    claim_c3_cancellation wEnvC3 wSt wGathered ["abc"] 0 rfl rfl rfl rfl rfl (by decide)⟩

/-- Claim C5: when the accumulated completion trims to the empty string on a
cache miss, `getTabCompletion` returns absent rather than an outcome, and
even after the caller-side store step the cache maps the rendered prompt
exactly as before (nothing is cached). -/
theorem claim_c5_empty_suppression (env : TabEnv) (st : SharedState) (g : Gathered)
    (deltas : List String)
    (hf : filterHit env = false)
    (hg : gatherContext env = Except.ok (some g))
    (hm : jsTruthy (LruCache.get st.cache g.prompt).1 = false)
    (hd : env.streamDeltas = Except.ok deltas)
    (hnc : (consumeWithCancellation env.cancelAt deltas).2 = false)
    (hempty : jsTrim (String.join (pipelineChunks env g
      (consumeWithCancellation env.cancelAt deltas).1)) = "") :
    (getTabCompletion env st).outcome = none ∧
    (completeAndCache env st).state.cache.lookup g.prompt = st.cache.lookup g.prompt := by
  have hlen : (jsTrim (String.join (pipelineChunks env g
      (consumeWithCancellation env.cancelAt deltas).1))).length ≤ 0 := by
    rw [hempty]; exact Nat.le_refl 0
  have hrun : getTabCompletion env st =
      ⟨none, ⟨(LruCache.get st.cache g.prompt).2, st.errorsShown⟩,
        ⟨true, true, true, [⟨g.prompt, mergedOptions g (stopList env g)⟩], []⟩⟩ := by
    rw [run_miss env st g hf hg hm]
    simp only [missPath, hd]
    rw [if_neg (by simp [hnc]), if_pos hlen]
  have hnone : (getTabCompletion env st).outcome = none := by rw [hrun]
  refine ⟨hnone, ?_⟩
  rw [completeAndCache_of_none env st hnone, hrun]
  exact lookup_get st.cache g.prompt g.prompt

theorem claim_c5_witness :
    filterHit wEnvC5 = false ∧
    gatherContext wEnvC5 = Except.ok (some wGathered) ∧
    jsTruthy (LruCache.get wSt.cache wGathered.prompt).1 = false ∧
    wEnvC5.streamDeltas = Except.ok [] ∧
    (consumeWithCancellation wEnvC5.cancelAt []).2 = false ∧
    jsTrim (String.join (pipelineChunks wEnvC5 wGathered
      (consumeWithCancellation wEnvC5.cancelAt []).1)) = "" ∧
    ((getTabCompletion wEnvC5 wSt).outcome = none ∧
      (completeAndCache wEnvC5 wSt).state.cache.lookup wGathered.prompt =
        wSt.cache.lookup wGathered.prompt) :=
  ⟨rfl, rfl, rfl, rfl, rfl, by decide,
    claim_c5_empty_suppression wEnvC5 wSt wGathered [] rfl rfl rfl rfl rfl (by decide)⟩

/-- Claim C6: an exception thrown between model resolution and stream
consumption (a rejected step while gathering context, or a throwing stream)
is caught at the `getTabCompletion` boundary: the call resolves to absent,
the message is surfaced if and only if it was never surfaced before, and it
is recorded so that identical messages in later calls are not surfaced
again. -/
theorem claim_c6_error_dedup (env : TabEnv) (st : SharedState) (msg : String)
    (hf : filterHit env = false)
    (h : gatherContext env = Except.error msg ∨
      ∃ g, gatherContext env = Except.ok (some g) ∧
        jsTruthy (LruCache.get st.cache g.prompt).1 = false ∧
        env.streamDeltas = Except.error msg) :
    (getTabCompletion env st).outcome = none ∧
    (msg ∈ st.errorsShown → (getTabCompletion env st).trace.surfacedErrors = []) ∧
    (msg ∉ st.errorsShown → (getTabCompletion env st).trace.surfacedErrors = [msg]) ∧
    msg ∈ (getTabCompletion env st).state.errorsShown := by
  obtain h | ⟨g, hg, hm, hd⟩ := h
  · rw [run_gather_error env st msg hf h]
    unfold handleError
    by_cases hmem : msg ∈ st.errorsShown
    · simp [hmem, Trace.empty]
    · simp [hmem, Trace.empty]
  · rw [run_miss env st g hf hg hm]
    simp only [missPath, hd]
    unfold handleError
    by_cases hmem : msg ∈ st.errorsShown
    · simp [hmem]
    · simp [hmem]

theorem claim_c6_witness :
    filterHit wEnvC6 = false ∧
    gatherContext wEnvC6 = Except.error "boom" ∧
    ((getTabCompletion wEnvC6 wSt).outcome = none ∧
      ("boom" ∈ wSt.errorsShown → (getTabCompletion wEnvC6 wSt).trace.surfacedErrors = []) ∧
      ("boom" ∉ wSt.errorsShown → (getTabCompletion wEnvC6 wSt).trace.surfacedErrors = ["boom"]) ∧
      "boom" ∈ (getTabCompletion wEnvC6 wSt).state.errorsShown) :=
  ⟨rfl, rfl, claim_c6_error_dedup wEnvC6 wSt "boom" rfl (Or.inl rfl)⟩

/-- Claim C7: when the symbol-definition lookup settles later than the 100ms
timer, the race resolves to the empty snippet list (never to an error), and
the whole call is independent of whatever the lookup would have produced:
the lookup's lateness is never surfaced and never fails the call. -/
theorem claim_c7_lsp_timeout (env : TabEnv) (st : SharedState)
    (other : Except String (List Snippet)) (h : 100 < env.lspSettleTime) :
    raceLsp env.lspSettleTime env.lspResult = Except.ok [] ∧
    getTabCompletion { env with lspResult := other } st = getTabCompletion env st := by
  have hr : ∀ r : Except String (List Snippet), raceLsp env.lspSettleTime r = Except.ok [] := by
    intro r
    unfold raceLsp
    rw [if_neg (by omega)]
  refine ⟨hr _, ?_⟩
  have hgather : gatherContext { env with lspResult := other } = gatherContext env := by
    unfold gatherContext
    dsimp only
    rw [hr, hr]
    rfl
  unfold getTabCompletion
  rw [hgather]
  rfl

theorem claim_c7_witness :
    100 < wEnvC7.lspSettleTime ∧
    (raceLsp wEnvC7.lspSettleTime wEnvC7.lspResult = Except.ok [] ∧
      getTabCompletion { wEnvC7 with lspResult := Except.ok [⟨"snippet"⟩] } wSt =
        getTabCompletion wEnvC7 wSt) :=
  ⟨by decide, claim_c7_lsp_timeout wEnvC7 wSt (Except.ok [⟨"snippet"⟩]) (by decide)⟩

/-- Claim C9: on a cache miss the stream request passed to the model call
carries completion options with `temperature = 0`, `raw = true`, the computed
stop list, and the template's remaining completion options preserved by the
merge. -/
theorem claim_c9_options (env : TabEnv) (st : SharedState) (g : Gathered)
    (hf : filterHit env = false)
    (hg : gatherContext env = Except.ok (some g))
    (hm : jsTruthy (LruCache.get st.cache g.prompt).1 = false) :
    (getTabCompletion env st).trace.streamRequests =
      [⟨g.prompt, mergedOptions g (stopList env g)⟩] ∧
    (mergedOptions g (stopList env g)).temperature = some 0 ∧
    (mergedOptions g (stopList env g)).raw = some true ∧
    (mergedOptions g (stopList env g)).stop = some (stopList env g) ∧
    (mergedOptions g (stopList env g)).extra = g.templateChoice.completionOptions.extra :=
  ⟨miss_streamRequests env st g hf hg hm, rfl, rfl, rfl, rfl⟩

theorem claim_c9_witness :
    filterHit wEnv = false ∧
    gatherContext wEnv = Except.ok (some wGathered) ∧
    jsTruthy (LruCache.get wSt.cache wGathered.prompt).1 = false ∧
    ((getTabCompletion wEnv wSt).trace.streamRequests =
        [⟨wGathered.prompt, mergedOptions wGathered (stopList wEnv wGathered)⟩] ∧
      (mergedOptions wGathered (stopList wEnv wGathered)).temperature = some 0 ∧
      (mergedOptions wGathered (stopList wEnv wGathered)).raw = some true ∧
      (mergedOptions wGathered (stopList wEnv wGathered)).stop =
        some (stopList wEnv wGathered) ∧
      (mergedOptions wGathered (stopList wEnv wGathered)).extra =
        wGathered.templateChoice.completionOptions.extra) :=
  ⟨rfl, rfl, rfl, claim_c9_options wEnv wSt wGathered rfl rfl rfl⟩

theorem missPath_state_independent (env : TabEnv) (g : Gathered) (s1 s2 : SharedState)
    (he : s1.errorsShown = s2.errorsShown) :
    (missPath env g s1).outcome = (missPath env g s2).outcome ∧
    (missPath env g s1).trace = (missPath env g s2).trace := by
  simp only [missPath]
  split
  · unfold handleError
    rw [he]
    split <;> exact ⟨rfl, rfl⟩
  · split
    · exact ⟨rfl, rfl⟩
    · split <;> exact ⟨rfl, rfl⟩

theorem missPath_generatorAcquired (env : TabEnv) (g : Gathered) (s : SharedState) :
    (missPath env g s).trace.generatorAcquired = true := by
  simp only [missPath]
  split
  · unfold handleError
    split <;> rfl
  · split
    · rfl
    · split <;> rfl

/-- Claim C10: a cache probe returning a non-empty string short-circuits the
call: the outcome is a cache hit whose completion is the cached string exactly
as stored (no trailing-whitespace trim), with no generator acquisition and no
stream request; while a cached empty string behaves exactly as an absent
entry — the call proceeds down the miss path (generator acquired) and its
outcome and trace equal those of the same call with the entry erased. -/
theorem claim_c10_cache_hit (env : TabEnv) (st : SharedState) (g : Gathered)
    (hf : filterHit env = false)
    (hg : gatherContext env = Except.ok (some g)) :
    (jsTruthy (LruCache.get st.cache g.prompt).1 = true →
      (getTabCompletion env st).outcome =
        some (mkOutcome env g (((LruCache.get st.cache g.prompt).1).getD "") true) ∧
      (getTabCompletion env st).trace.generatorAcquired = false ∧
      (getTabCompletion env st).trace.streamRequests = []) ∧
    ((LruCache.get st.cache g.prompt).1 = some "" →
      (getTabCompletion env st).outcome =
        (getTabCompletion env ⟨st.cache.erase g.prompt, st.errorsShown⟩).outcome ∧
      (getTabCompletion env st).trace =
        (getTabCompletion env ⟨st.cache.erase g.prompt, st.errorsShown⟩).trace ∧
      (getTabCompletion env st).trace.generatorAcquired = true) := by
  constructor
  · intro hc
    rw [run_hit env st g hf hg hc]
    exact ⟨rfl, rfl, rfl⟩
  · intro hc
    have hm : jsTruthy (LruCache.get st.cache g.prompt).1 = false := by rw [hc]; rfl
    have hm2 : (LruCache.get (st.cache.erase g.prompt) g.prompt).1 = none := by
      unfold LruCache.erase LruCache.get
      have hnone : (st.cache.entries.filter (fun e => !(e.1 == g.prompt))).find?
          (fun e => e.1 == g.prompt) = none := by
        rw [List.find?_eq_none]
        intro x hx
        have hfx := (List.mem_filter.mp hx).2
        simp only [Bool.not_eq_eq_eq_not, Bool.not_true] at hfx
        simp [hfx]
      simp only [hnone]
    have hmm : jsTruthy (LruCache.get (st.cache.erase g.prompt) g.prompt).1 = false := by
      rw [hm2]; rfl
    rw [run_miss env st g hf hg hm,
      run_miss env ⟨st.cache.erase g.prompt, st.errorsShown⟩ g hf hg hmm]
    obtain ⟨ho, ht⟩ := missPath_state_independent env g
      ⟨(LruCache.get st.cache g.prompt).2, st.errorsShown⟩
      ⟨(LruCache.get (st.cache.erase g.prompt) g.prompt).2, st.errorsShown⟩ rfl
    exact ⟨ho, ht, missPath_generatorAcquired env g _⟩

theorem claim_c10_witness :
    filterHit wEnv = false ∧
    gatherContext wEnv = Except.ok (some wGathered) ∧
    ((jsTruthy (LruCache.get wStC10.cache wGathered.prompt).1 = true →
        (getTabCompletion wEnv wStC10).outcome =
          some (mkOutcome wEnv wGathered
            (((LruCache.get wStC10.cache wGathered.prompt).1).getD "") true) ∧
        (getTabCompletion wEnv wStC10).trace.generatorAcquired = false ∧
        (getTabCompletion wEnv wStC10).trace.streamRequests = []) ∧
      ((LruCache.get wStC10.cache wGathered.prompt).1 = some "" →
        (getTabCompletion wEnv wStC10).outcome =
          (getTabCompletion wEnv ⟨wStC10.cache.erase wGathered.prompt,
            wStC10.errorsShown⟩).outcome ∧
        (getTabCompletion wEnv wStC10).trace =
          (getTabCompletion wEnv ⟨wStC10.cache.erase wGathered.prompt,
            wStC10.errorsShown⟩).trace ∧
        (getTabCompletion wEnv wStC10).trace.generatorAcquired = true)) :=
  ⟨rfl, rfl, claim_c10_cache_hit wEnv wStC10 wGathered rfl rfl⟩

/-- Claim C2 as stated is false on the code: with `multilineCompletions =
"auto"` (not forced on) and `completeMultiline = true`, no leading `"\n"` is
prepended — the stop list passed to the model call starts with `"\n\n"`. -/
theorem claim_c2_counterexample :
    wEnv.options.multilineCompletions ≠ MultilineSetting.always ∧
    (getTabCompletion wEnv wSt).trace.streamRequests.map (fun r => r.options.stop) =
      [some ["\n\n", "```", "function"]] ∧
    (["\n\n", "```", "function"] : List String).head? ≠ some "\n" := by
  refine ⟨by decide, by decide, by decide⟩

/-- Claim C2 (amended): on a cache miss the stop list passed to the model
call is the template's stop sequences followed by `"\n\n"` and `` "```" ``
followed by the language's stop words, and `"\n"` is prepended if and only
if multiline completions are not forced on AND (they are forced off OR the
prompt construction did not choose multiline completion). -/
theorem claim_c2_stop_list (env : TabEnv) (st : SharedState) (g : Gathered)
    (hf : filterHit env = false)
    (hg : gatherContext env = Except.ok (some g))
    (hm : jsTruthy (LruCache.get st.cache g.prompt).1 = false) :
    (getTabCompletion env st).trace.streamRequests.map (fun r => r.options.stop) =
      [some (stopList env g)] ∧
    ((env.options.multilineCompletions ≠ MultilineSetting.always ∧
        (env.options.multilineCompletions = MultilineSetting.never ∨
          g.constructed.completeMultiline = false)) →
      stopList env g = "\n" :: (g.templateChoice.completionOptions.stop.getD [] ++
        ["\n\n", "```"] ++ env.lang.stopWords)) ∧
    (¬ (env.options.multilineCompletions ≠ MultilineSetting.always ∧
        (env.options.multilineCompletions = MultilineSetting.never ∨
          g.constructed.completeMultiline = false)) →
      stopList env g = g.templateChoice.completionOptions.stop.getD [] ++
        ["\n\n", "```"] ++ env.lang.stopWords) := by
  refine ⟨?_, ?_, ?_⟩
  · rw [miss_streamRequests env st g hf hg hm]
    rfl
  · intro hcond
    simp only [stopList]
    rw [if_pos hcond]
  · intro hcond
    simp only [stopList]
    rw [if_neg hcond]

theorem claim_c2_stop_list_witness :
    filterHit wEnv = false ∧
    gatherContext wEnv = Except.ok (some wGathered) ∧
    jsTruthy (LruCache.get wSt.cache wGathered.prompt).1 = false ∧
    ((getTabCompletion wEnv wSt).trace.streamRequests.map (fun r => r.options.stop) =
        [some (stopList wEnv wGathered)] ∧
      ((wEnv.options.multilineCompletions ≠ MultilineSetting.always ∧
          (wEnv.options.multilineCompletions = MultilineSetting.never ∨
            wGathered.constructed.completeMultiline = false)) →
        stopList wEnv wGathered =
          "\n" :: (wGathered.templateChoice.completionOptions.stop.getD [] ++
            ["\n\n", "```"] ++ wEnv.lang.stopWords)) ∧
      (¬ (wEnv.options.multilineCompletions ≠ MultilineSetting.always ∧
          (wEnv.options.multilineCompletions = MultilineSetting.never ∨
            wGathered.constructed.completeMultiline = false)) →
        stopList wEnv wGathered =
          wGathered.templateChoice.completionOptions.stop.getD [] ++
            ["\n\n", "```"] ++ wEnv.lang.stopWords)) :=
  ⟨rfl, rfl, rfl, claim_c2_stop_list wEnv wSt wGathered rfl rfl rfl⟩

/-- Claim C8: on a non-cancelled, non-empty cache miss, the served completion
is the trailing-whitespace trim of the concatenation, in order, of the chunks
produced by applying, in this fixed order, whitespace-after-end-of-line
suppression, line reassembly, and the similar-line stopper compared against
the line below the cursor, to the deltas that passed the cancellation
wrapper. -/
theorem claim_c8_pipeline_order (env : TabEnv) (st : SharedState) (g : Gathered)
    (deltas : List String)
    (hf : filterHit env = false)
    (hg : gatherContext env = Except.ok (some g))
    (hm : jsTruthy (LruCache.get st.cache g.prompt).1 = false)
    (hd : env.streamDeltas = Except.ok deltas)
    (hnc : (consumeWithCancellation env.cancelAt deltas).2 = false)
    (hne : ¬ (jsTrim (String.join (pipelineChunks env g
        (consumeWithCancellation env.cancelAt deltas).1))).length ≤ 0) :
    (getTabCompletion env st).outcome.map (fun o => o.completion) =
      some (jsTrimEnd (String.join (stopAtSimilarLine env.similar (lineBelowCursor env)
        (streamWithNewLines (streamLines (onlyWhitespaceAfterEndOfLine env.lang.endOfLine
          (consumeWithCancellation env.cancelAt deltas).1)))))) := by
  rw [run_miss env st g hf hg hm]
  simp only [missPath, hd]
  rw [if_neg (by simp [hnc]), if_neg hne]
  simp only [Option.map_some, mkOutcome]
  rw [show pipelineChunks env g (consumeWithCancellation env.cancelAt deltas).1 =
    stopAtSimilarLine env.similar (lineBelowCursor env)
      (streamWithNewLines (streamLines (onlyWhitespaceAfterEndOfLine env.lang.endOfLine
        (consumeWithCancellation env.cancelAt deltas).1)))
    from by rw [pipelineChunks, gather_lineBelow env g hg]]
  rfl

theorem claim_c8_witness :
    filterHit wEnv = false ∧
    gatherContext wEnv = Except.ok (some wGathered) ∧
    jsTruthy (LruCache.get wSt.cache wGathered.prompt).1 = false ∧
    wEnv.streamDeltas = Except.ok ["abc"] ∧
    (consumeWithCancellation wEnv.cancelAt ["abc"]).2 = false ∧
    ¬ (jsTrim (String.join (pipelineChunks wEnv wGathered
        (consumeWithCancellation wEnv.cancelAt ["abc"]).1))).length ≤ 0 ∧
    (getTabCompletion wEnv wSt).outcome.map (fun o => o.completion) =
      some (jsTrimEnd (String.join (stopAtSimilarLine wEnv.similar (lineBelowCursor wEnv)
        (streamWithNewLines (streamLines (onlyWhitespaceAfterEndOfLine wEnv.lang.endOfLine
          (consumeWithCancellation wEnv.cancelAt ["abc"]).1)))))) :=
  ⟨rfl, rfl, rfl, rfl, rfl, by decide,
    claim_c8_pipeline_order wEnv wSt wGathered ["abc"] rfl rfl rfl rfl rfl (by decide)⟩

/-- Claim C1: a call that serves an outcome after a cache miss stores the
final completion keyed by the rendered prompt (caller-side store step), so an
identical second call — same document state, same rendered prompt — is a
cache hit whose completion text is identical to the first call's. -/
theorem claim_c1_cache_determinism (env : TabEnv) (st : SharedState)
    (o : AutocompleteOutcome)
    (hcap : 0 < st.cache.capacity)
    (h1 : (completeAndCache env st).outcome = some o)
    (hmiss : o.cacheHit = false) :
    ((completeAndCache env (completeAndCache env st).state).outcome.map
      (fun o' => o'.cacheHit)) = some true ∧
    ((completeAndCache env (completeAndCache env st).state).outcome.map
      (fun o' => o'.completion)) = some o.completion := by
  rw [completeAndCache_outcome] at h1
  obtain ⟨g, deltas, hf, hg, hm, hd, hnc, hne, ho⟩ := served_miss_inversion env st o h1 hmiss
  have hrun1 : getTabCompletion env st =
      ⟨some (mkOutcome env g (jsTrimEnd (String.join (pipelineChunks env g
          (consumeWithCancellation env.cancelAt deltas).1))) false),
        ⟨(LruCache.get st.cache g.prompt).2, st.errorsShown⟩,
        ⟨true, true, true, [⟨g.prompt, mergedOptions g (stopList env g)⟩], []⟩⟩ := by
    rw [run_miss env st g hf hg hm]
    simp only [missPath, hd]
    rw [if_neg (by simp [hnc]), if_neg hne]
  have hstate1 : (completeAndCache env st).state =
      ⟨((LruCache.get st.cache g.prompt).2).put g.prompt
          (jsTrimEnd (String.join (pipelineChunks env g
            (consumeWithCancellation env.cancelAt deltas).1))), st.errorsShown⟩ := by
    unfold completeAndCache
    rw [hrun1]
    rfl
  have hcap2 : 0 < ((LruCache.get st.cache g.prompt).2).capacity := by
    rw [get_capacity]; exact hcap
  have hvne : jsTrimEnd (String.join (pipelineChunks env g
      (consumeWithCancellation env.cancelAt deltas).1)) ≠ "" := jsTrimEnd_ne_empty _ hne
  have hget2 : (LruCache.get ((completeAndCache env st).state.cache) g.prompt).1 =
      some (jsTrimEnd (String.join (pipelineChunks env g
        (consumeWithCancellation env.cancelAt deltas).1))) := by
    rw [hstate1]
    exact get_put_self _ _ _ hcap2
  have htruthy : jsTruthy (LruCache.get ((completeAndCache env st).state.cache) g.prompt).1 =
      true := by
    rw [hget2]
    simp [jsTruthy, hvne]
  have hrun2 := run_hit env (completeAndCache env st).state g hf hg htruthy
  rw [completeAndCache_outcome, hrun2]
  refine ⟨rfl, ?_⟩
  rw [ho]
  simp only [Option.map_some, mkOutcome, hget2, Option.getD_some]
  rfl

theorem claim_c1_witness :
    0 < wSt.cache.capacity ∧
    (completeAndCache wEnv wSt).outcome = some wOutcome ∧
    wOutcome.cacheHit = false ∧
    (((completeAndCache wEnv (completeAndCache wEnv wSt).state).outcome.map
        (fun o' => o'.cacheHit)) = some true ∧
      ((completeAndCache wEnv (completeAndCache wEnv wSt).state).outcome.map
        (fun o' => o'.completion)) = some wOutcome.completion) :=
  ⟨by decide, by decide, by decide,
    claim_c1_cache_determinism wEnv wSt wOutcome (by decide) (by decide) (by decide)⟩
